import Mathlib

set_option linter.unusedVariables false

/-!
Shallow embedding of the feature-flag service (`src/main.go`).

The store is `featureFlagService`, holding `flags : String → Option Bool`,
modelling the Go `map[string]bool` (lookup `m[key]` yields `(val, exists)`,
embedded as `Option Bool`).  Methods on the pointer receiver `*featureFlagService`
are embedded in state-passing style: they take the current service value and
return the (possibly updated) service value alongside their Go results.
Go's `error` is `Option GoError` (`none` = `nil`).  The `context.Context`
argument is an arbitrary type parameter `Ctx`, since the Go code never
inspects it.

The JSON transport boundary (`decodeGetFeatureFlagRequest`,
`decodeSetFeatureFlagRequest`, and the go-kit server that wires a decoder to
an endpoint) is embedded over a concrete JSON value type, following the
documented semantics of Go `encoding/json` for decoding into the two request
structs: object entries are processed in order, field names are matched
(ASCII) case-insensitively, a missing field leaves the Go zero value, JSON
`null` is a no-op, and a type mismatch records a non-nil
`UnmarshalTypeError` (keeping only the first error) while decoding
continues.
-/

namespace FeatureFlagSvc

/-- A Go `error` value (non-`nil` cases we need to distinguish). -/
inductive GoError where
  | unmarshalTypeError (goType : String) : GoError
  | custom (msg : String) : GoError
deriving DecidableEq, Repr

/-- `featureFlagService` from `src/main.go:23-26`: the concrete store,
its `flags map[string]bool` embedded as `String → Option Bool`.
(The `sync.RWMutex` field guards concurrent access and has no sequential
content, so it does not appear in the embedding.) -/
structure featureFlagService where
  flags : String → Option Bool

/-- The service as constructed in `main` (`src/main.go:84`):
`&featureFlagService{flags: make(map[string]bool)}`, i.e. an empty map. -/
def initialService : featureFlagService := { flags := fun _ => none }

/-- `featureFlagService.GetFeatureFlag` (`src/main.go:28-36`):
```
val, exists := s.flags[key]
if !exists { return false, nil }
return val, nil
```
State-passing: the returned service value is the receiver's state after the
call (the body performs no write to `s.flags`). -/
def featureFlagService.GetFeatureFlag {Ctx : Type} (s : featureFlagService)
    (ctx : Ctx) (key : String) : featureFlagService × Bool × Option GoError :=
  match s.flags key with
  | none => (s, false, none)
  | some val => (s, val, none)

/-- `featureFlagService.SetFeatureFlag` (`src/main.go:38-43`):
```
s.flags[key] = value
return nil
```
The map assignment is embedded as a pointwise function update. -/
def featureFlagService.SetFeatureFlag {Ctx : Type} (s : featureFlagService)
    (ctx : Ctx) (key : String) (value : Bool) :
    featureFlagService × Option GoError :=
  ({ flags := fun k => if k = key then some value else s.flags k }, none)

/-- `getFeatureFlagRequest` (`src/main.go:46-48`). -/
structure getFeatureFlagRequest where
  Key : String
deriving DecidableEq, Repr

/-- `getFeatureFlagResponse` (`src/main.go:50-52`). -/
structure getFeatureFlagResponse where
  Value : Bool
deriving DecidableEq, Repr

/-- `setFeatureFlagRequest` (`src/main.go:54-57`). -/
structure setFeatureFlagRequest where
  Key : String
  Value : Bool
deriving DecidableEq, Repr

/-- `setFeatureFlagResponse` (`src/main.go:59-61`). -/
structure setFeatureFlagResponse where
  Success : Bool
deriving DecidableEq, Repr

/-- Runs a sequence of `SetFeatureFlag` calls against the store, in order:
the sequential-trace semantics used to state the spec's history properties
("never passed to SetFlag", "no intervening SetFlag"). -/
def runSets {Ctx : Type} (ctx : Ctx) :
    List (String × Bool) → featureFlagService → featureFlagService
  | [], s => s
  | (k, v) :: rest, s =>
      runSets ctx rest (s.SetFeatureFlag ctx k v).1

theorem runSets_flags_of_not_mem {Ctx : Type} (ctx : Ctx) :
    ∀ (ops : List (String × Bool)) (s : featureFlagService) (k : String),
      k ∉ ops.map Prod.fst → (runSets ctx ops s).flags k = s.flags k := by
  intro ops
  induction ops with
  | nil => intro s k _; rfl
  | cons p rest ih =>
      intro s k h
      rw [List.map_cons, List.mem_cons] at h
      push_neg at h
      obtain ⟨p1, p2⟩ := p
      have hstep := ih (s.SetFeatureFlag ctx p1 p2).1 k h.2
      rw [runSets, hstep]
      simp only [featureFlagService.SetFeatureFlag]
      exact if_neg h.1

/-- **C1.** Default-false: for every key `k` never passed to `SetFeatureFlag`
(any trace `ops` of set calls starting from the freshly created empty store,
with `k` not among the written keys, including the empty trace), a
`GetFeatureFlag` of `k` returns `false` with a `nil` error. -/
theorem getFlag_default_false {Ctx : Type} (ctx : Ctx)
    (ops : List (String × Bool)) (k : String)
    (h : k ∉ ops.map Prod.fst) :
    ((runSets ctx ops initialService).GetFeatureFlag ctx k).2.1 = false ∧
    ((runSets ctx ops initialService).GetFeatureFlag ctx k).2.2 = none := by
  have hflags : (runSets ctx ops initialService).flags k = none := by
    rw [runSets_flags_of_not_mem ctx ops initialService k h]; rfl
  constructor <;>
    simp [featureFlagService.GetFeatureFlag, hflags]

theorem getFlag_default_false_witness :
    ("beta" ∉ ([("alpha", true)] : List (String × Bool)).map Prod.fst) ∧
    ((runSets (0 : Nat) [("alpha", true)] initialService).GetFeatureFlag
        (0 : Nat) "beta").2.1 = false ∧
    ((runSets (0 : Nat) [("alpha", true)] initialService).GetFeatureFlag
        (0 : Nat) "beta").2.2 = none :=
  ⟨by decide, getFlag_default_false (0 : Nat) [("alpha", true)] "beta" (by decide)⟩

/-- **C2.** Write-then-read: after `SetFeatureFlag(k, v)` on any store, with
no intervening set of `k` (an arbitrary trace `ops` of sets to other keys is
allowed in between), a subsequent `GetFeatureFlag(k)` returns exactly `v`. -/
theorem setFlag_then_getFlag {Ctx : Type} (ctx : Ctx)
    (s : featureFlagService) (k : String) (v : Bool)
    (ops : List (String × Bool)) (h : k ∉ ops.map Prod.fst) :
    ((runSets ctx ops (s.SetFeatureFlag ctx k v).1).GetFeatureFlag ctx k).2.1
      = v := by
  have hflags : (runSets ctx ops (s.SetFeatureFlag ctx k v).1).flags k
      = some v := by
    rw [runSets_flags_of_not_mem ctx ops _ k h]
    simp [featureFlagService.SetFeatureFlag]
  simp [featureFlagService.GetFeatureFlag, hflags]

theorem setFlag_then_getFlag_witness :
    ("beta" ∉ ([("gamma", false)] : List (String × Bool)).map Prod.fst) ∧
    ((runSets (0 : Nat) [("gamma", false)]
        (initialService.SetFeatureFlag (0 : Nat) "beta" true).1).GetFeatureFlag
        (0 : Nat) "beta").2.1 = true :=
  ⟨by decide,
    setFlag_then_getFlag (0 : Nat) initialService "beta" true
      [("gamma", false)] (by decide)⟩

/-- **C3.** Last-write-wins: `SetFeatureFlag(k, v1)` then `SetFeatureFlag(k, v2)`
then `GetFeatureFlag(k)` yields `v2`, on any starting store. -/
theorem setFlag_last_write_wins {Ctx : Type} (ctx : Ctx)
    (s : featureFlagService) (k : String) (v1 v2 : Bool) :
    ((((s.SetFeatureFlag ctx k v1).1).SetFeatureFlag ctx k v2).1.GetFeatureFlag
        ctx k).2.1 = v2 := by
  simp [featureFlagService.SetFeatureFlag, featureFlagService.GetFeatureFlag]

/-- **C4.** Key independence: for distinct keys `k1 ≠ k2`, running
`SetFeatureFlag(k1, v)` does not change the result (value and error) of
`GetFeatureFlag(k2)`, on any store. -/
theorem setFlag_other_key_unchanged {Ctx : Type} (ctx : Ctx)
    (s : featureFlagService) (k1 k2 : String) (v : Bool) (h : k1 ≠ k2) :
    ((s.SetFeatureFlag ctx k1 v).1.GetFeatureFlag ctx k2).2
      = (s.GetFeatureFlag ctx k2).2 := by
  have hflags : (s.SetFeatureFlag ctx k1 v).1.flags k2 = s.flags k2 := by
    simp only [featureFlagService.SetFeatureFlag]
    exact if_neg (fun hk => h hk.symm)
  simp only [featureFlagService.GetFeatureFlag, hflags]
  cases s.flags k2 <;> rfl

theorem setFlag_other_key_unchanged_witness :
    ("alpha" : String) ≠ "beta" ∧
    ((initialService.SetFeatureFlag (0 : Nat) "alpha" true).1.GetFeatureFlag
        (0 : Nat) "beta").2
      = (initialService.GetFeatureFlag (0 : Nat) "beta").2 :=
  ⟨by decide,
    setFlag_other_key_unchanged (0 : Nat) initialService "alpha" "beta" true
      (by decide)⟩

/-- **C5.** Pure read: `GetFeatureFlag` leaves the flag mapping exactly
unchanged — the post-call store equals the pre-call store, so a subsequent
`GetFeatureFlag` of any key returns the same result as before the call. -/
theorem getFlag_pure_read {Ctx : Type} (ctx : Ctx)
    (s : featureFlagService) (k : String) :
    (s.GetFeatureFlag ctx k).1 = s ∧
    ∀ k2 : String,
      ((s.GetFeatureFlag ctx k).1).GetFeatureFlag ctx k2
        = s.GetFeatureFlag ctx k2 := by
  have hs : (s.GetFeatureFlag ctx k).1 = s := by
    unfold featureFlagService.GetFeatureFlag
    cases s.flags k <;> rfl
  exact ⟨hs, fun k2 => by rw [hs]⟩

/-- **C9.** Context independence: `GetFeatureFlag` and `SetFeatureFlag` give
the same result and resulting state under any two context values (the `ctx`
parameter is never consulted in either method body). -/
theorem flag_ops_ctx_independent {Ctx : Type} (s : featureFlagService)
    (c1 c2 : Ctx) (k : String) (v : Bool) :
    s.GetFeatureFlag c1 k = s.GetFeatureFlag c2 k ∧
    s.SetFeatureFlag c1 k v = s.SetFeatureFlag c2 k v :=
  ⟨rfl, rfl⟩

/-! ## Transport boundary -/

/-- A JSON value, as decoded from a request body. -/
inductive Json where
  | null : Json
  | bool (b : Bool) : Json
  | num (n : Int) : Json
  | str (s : String) : Json
  | arr (elems : List Json) : Json
  | obj (fields : List (String × Json)) : Json

/-- ASCII lowercasing of one character (the identity off `A`-`Z`). -/
def asciiLower (c : Char) : Char :=
  if 'A' ≤ c ∧ c ≤ 'Z' then Char.ofNat (c.toNat + 32) else c

/-- Go `encoding/json` field-name folding: struct-field matching accepts a
case-insensitive match, which since Go 1.21 (`appendFoldedName`) folds ASCII
letters only.  Exact-match preference among several candidate struct fields
never arises for our two request structs, whose field names ("key", "value")
are not case-insensitively equal to each other. -/
def foldName (s : String) : String := ⟨s.data.map asciiLower⟩

/-- Go `encoding/json`'s `d.saveError`: only the first decode error of a
`Decode` call is kept (decoding continues past it). -/
def saveError (saved : Option GoError) (e : GoError) : Option GoError :=
  match saved with
  | some e0 => some e0
  | none => some e

/-- One step of Go `encoding/json`'s object-decoding loop, decoding into
`getFeatureFlagRequest` (single field `Key`, tag "key"): an entry whose name
folds to "key" sets `Key` from a JSON string, is a no-op on `null`, and
records an `UnmarshalTypeError` otherwise (the field keeping its prior
value); entries matching no field are ignored.  Later entries overwrite
earlier ones for the same field. -/
def getRequestStep (acc : getFeatureFlagRequest × Option GoError)
    (entry : String × Json) : getFeatureFlagRequest × Option GoError :=
  if foldName entry.1 = "key" then
    match entry.2 with
    | Json.null => acc
    | Json.str s => ({ Key := s }, acc.2)
    | _ => (acc.1, saveError acc.2 (GoError.unmarshalTypeError "string"))
  else acc

/-- One step of Go `encoding/json`'s object-decoding loop, decoding into
`setFeatureFlagRequest` (fields `Key`/"key" and `Value`/"value"); same
semantics per field as `getRequestStep`. -/
def setRequestStep (acc : setFeatureFlagRequest × Option GoError)
    (entry : String × Json) : setFeatureFlagRequest × Option GoError :=
  if foldName entry.1 = "key" then
    match entry.2 with
    | Json.null => acc
    | Json.str s => ({ acc.1 with Key := s }, acc.2)
    | _ => (acc.1, saveError acc.2 (GoError.unmarshalTypeError "string"))
  else if foldName entry.1 = "value" then
    match entry.2 with
    | Json.null => acc
    | Json.bool b => ({ acc.1 with Value := b }, acc.2)
    | _ => (acc.1, saveError acc.2 (GoError.unmarshalTypeError "bool"))
  else acc

/-- `decodeGetFeatureFlagRequest` (`src/main.go:104-110`): decode the body
into a `getFeatureFlagRequest` starting from the zero value, walking the
object's entries in order, and return the request or the first recorded
decode error.  A top-level `null` is a no-op on the zero request; a
top-level non-object cannot unmarshal into a struct. -/
def decodeGetFeatureFlagRequest (body : Json) :
    Except GoError getFeatureFlagRequest :=
  match body with
  | Json.null => Except.ok { Key := "" }
  | Json.obj fields =>
      match fields.foldl getRequestStep ({ Key := "" }, none) with
      | (req, none) => Except.ok req
      | (_, some e) => Except.error e
  | _ => Except.error (GoError.unmarshalTypeError "main.getFeatureFlagRequest")

/-- `decodeSetFeatureFlagRequest` (`src/main.go:112-118`): decode the body
into a `setFeatureFlagRequest` starting from the zero value, walking the
object's entries in order, and return the request or the first recorded
decode error. -/
def decodeSetFeatureFlagRequest (body : Json) :
    Except GoError setFeatureFlagRequest :=
  match body with
  | Json.null => Except.ok { Key := "", Value := false }
  | Json.obj fields =>
      match fields.foldl setRequestStep ({ Key := "", Value := false }, none) with
      | (req, none) => Except.ok req
      | (_, some e) => Except.error e
  | _ => Except.error (GoError.unmarshalTypeError "main.setFeatureFlagRequest")

/-- `makeSetFeatureFlagEndpoint` applied to the concrete service
(`src/main.go:72-78`): calls `svc.SetFeatureFlag(ctx, req.Key, req.Value)`
(its error is discarded) and returns `setFeatureFlagResponse{Success: true}`
with a `nil` error; state-passing over the service the endpoint closes over. -/
def makeSetFeatureFlagEndpoint {Ctx : Type} (s : featureFlagService)
    (ctx : Ctx) (req : setFeatureFlagRequest) :
    featureFlagService × setFeatureFlagResponse × Option GoError :=
  ((s.SetFeatureFlag ctx req.Key req.Value).1, { Success := true }, none)

/-- The go-kit HTTP server for the "/set" route (`src/main.go:91-95`):
decode the body with `decodeSetFeatureFlagRequest`; on a decode error the
endpoint is never invoked and the request fails at the transport boundary;
otherwise run the endpoint on the decoded request. -/
def handleSetRequest {Ctx : Type} (s : featureFlagService) (ctx : Ctx)
    (body : Json) : featureFlagService × Except GoError setFeatureFlagResponse :=
  match decodeSetFeatureFlagRequest body with
  | Except.error e => (s, Except.error e)
  | Except.ok req =>
      let r := makeSetFeatureFlagEndpoint s ctx req
      (r.1, Except.ok r.2.1)

/-- **C6.** Totality and infallibility: for every store, context, key
(including `""`) and value, `GetFeatureFlag` and `SetFeatureFlag` return a
`nil` error, and the set endpoint's response carries `Success = true`. -/
theorem flag_ops_total_infallible {Ctx : Type} (ctx : Ctx)
    (s : featureFlagService) (k : String) (v : Bool) :
    (s.GetFeatureFlag ctx k).2.2 = none ∧
    (s.SetFeatureFlag ctx k v).2 = none ∧
    (makeSetFeatureFlagEndpoint s ctx { Key := k, Value := v }).2.1.Success
      = true := by
  refine ⟨?_, rfl, rfl⟩
  unfold featureFlagService.GetFeatureFlag
  cases s.flags k <;> rfl

/-- Recognizes the JSON values that unmarshal into a Go `bool` field without
error (`bool` verbatim; `null` as a no-op). -/
def jsonBoolOk : Json → Bool
  | Json.null => true
  | Json.bool _ => true
  | _ => false

/-- **C7 (counterexample).** At the concrete get-request body `{}` — a body
that omits the `key` field — `decodeGetFeatureFlagRequest` does NOT fail: it
succeeds with the zero-value key `""`, so the claim that omitting `key`
yields a decode failure is false. -/
theorem getDecode_missing_key_succeeds :
    decodeGetFeatureFlagRequest (Json.obj []) = Except.ok { Key := "" } := rfl

theorem saveError_ne_none (saved : Option GoError) (e : GoError) :
    saveError saved e ≠ none := by
  cases saved <;> simp [saveError]

theorem setRequestStep_error_stable (acc : setFeatureFlagRequest × Option GoError)
    (entry : String × Json) (h : acc.2 ≠ none) :
    (setRequestStep acc entry).2 ≠ none := by
  unfold setRequestStep
  split
  · split <;> first | exact h | exact saveError_ne_none _ _
  · split
    · split <;> first | exact h | exact saveError_ne_none _ _
    · exact h

theorem foldl_setRequestStep_error_stable :
    ∀ (l : List (String × Json)) (acc : setFeatureFlagRequest × Option GoError),
      acc.2 ≠ none → (l.foldl setRequestStep acc).2 ≠ none := by
  intro l
  induction l with
  | nil => intro acc h; exact h
  | cons a rest ih =>
      intro acc h
      exact ih (setRequestStep acc a) (setRequestStep_error_stable acc a h)

theorem setRequestStep_bad_value (acc : setFeatureFlagRequest × Option GoError)
    (k0 : String) (j : Json) (hk0 : foldName k0 = "value")
    (hj : jsonBoolOk j = false) :
    (setRequestStep acc (k0, j)).2 ≠ none := by
  have hne : foldName k0 ≠ "key" := by rw [hk0]; decide
  unfold setRequestStep
  rw [if_neg hne, if_pos hk0]
  cases j <;> first
    | exact saveError_ne_none _ _
    | simp [jsonBoolOk] at hj

theorem foldl_setRequestStep_bad :
    ∀ (l : List (String × Json)) (acc : setFeatureFlagRequest × Option GoError)
      (k0 : String) (j : Json), (k0, j) ∈ l → foldName k0 = "value" →
      jsonBoolOk j = false → (l.foldl setRequestStep acc).2 ≠ none := by
  intro l
  induction l with
  | nil => intro acc k0 j hmem _ _; exact absurd hmem (List.not_mem_nil _)
  | cons a rest ih =>
      intro acc k0 j hmem hk0 hj
      rw [List.foldl_cons]
      rcases List.mem_cons.mp hmem with heq | hmem'
      · subst heq
        exact foldl_setRequestStep_error_stable rest _
          (setRequestStep_bad_value acc k0 j hk0 hj)
      · exact ih (setRequestStep acc a) k0 j hmem' hk0 hj

theorem foldl_getRequestStep_skip :
    ∀ (l : List (String × Json)) (acc : getFeatureFlagRequest × Option GoError),
      (∀ p ∈ l, foldName (p : String × Json).1 ≠ "key") →
      l.foldl getRequestStep acc = acc := by
  intro l
  induction l with
  | nil => intro acc _; rfl
  | cons a rest ih =>
      intro acc h
      have hstep : getRequestStep acc a = acc := by
        unfold getRequestStep
        exact if_neg (h a (List.mem_cons_self a rest))
      rw [List.foldl_cons, hstep]
      exact ih acc (fun p hp => h p (List.mem_cons_of_mem a hp))

/-- **C7 (amended).** A set-request body one of whose entries names the
`value` field (up to Go's case-insensitive field matching) with a JSON
value that is neither a boolean nor `null` yields a decode failure, the
endpoint (and hence FlagStore) is never invoked, and the store is left
unmodified; a get-request body that merely omits the `key` field (no entry
matches it, even case-insensitively), however, decodes successfully to the
zero-value key `""` rather than failing. -/
theorem malformed_set_rejected {Ctx : Type} (ctx : Ctx)
    (s : featureFlagService) (fields gfields : List (String × Json))
    (k0 : String) (j : Json)
    (hmem : (k0, j) ∈ fields) (hk0 : foldName k0 = "value")
    (hj : jsonBoolOk j = false)
    (hg : ∀ p ∈ gfields, foldName (p : String × Json).1 ≠ "key") :
    (handleSetRequest s ctx (Json.obj fields)).1 = s ∧
    (handleSetRequest s ctx (Json.obj fields)).2.isOk = false ∧
    decodeGetFeatureFlagRequest (Json.obj gfields) = Except.ok { Key := "" } := by
  have herr := foldl_setRequestStep_bad fields
    ({ Key := "", Value := false }, none) k0 j hmem hk0 hj
  rcases hfold : fields.foldl setRequestStep ({ Key := "", Value := false }, none)
    with ⟨req, err⟩
  rw [hfold] at herr
  cases err with
  | none => exact absurd rfl herr
  | some e =>
      have hdec : decodeSetFeatureFlagRequest (Json.obj fields)
          = Except.error e := by
        simp only [decodeSetFeatureFlagRequest, hfold]
      have hget : decodeGetFeatureFlagRequest (Json.obj gfields)
          = Except.ok { Key := "" } := by
        simp only [decodeGetFeatureFlagRequest,
          foldl_getRequestStep_skip gfields _ hg]
      refine ⟨?_, ?_, hget⟩ <;>
        simp [handleSetRequest, hdec, Except.isOk, Except.toBool]

theorem malformed_set_rejected_witness :
    ((("VALUE" : String), Json.str "yes") ∈
        [(("Key" : String), Json.str "beta"), ("VALUE", Json.str "yes")]) ∧
    foldName "VALUE" = "value" ∧
    jsonBoolOk (Json.str "yes") = false ∧
    (handleSetRequest initialService (0 : Nat)
        (Json.obj [("Key", Json.str "beta"), ("VALUE", Json.str "yes")])).1
      = initialService ∧
    (handleSetRequest initialService (0 : Nat)
        (Json.obj [("Key", Json.str "beta"), ("VALUE", Json.str "yes")])).2.isOk
      = false ∧
    decodeGetFeatureFlagRequest (Json.obj [("notkey", Json.num 3)])
      = Except.ok { Key := "" } := by
  have h := malformed_set_rejected (0 : Nat) initialService
    [("Key", Json.str "beta"), ("VALUE", Json.str "yes")]
    [("notkey", Json.num 3)] "VALUE" (Json.str "yes")
    (List.mem_cons_of_mem _ (List.mem_cons_self _ _)) (by decide) rfl
    (by
      intro p hp
      rw [List.mem_singleton] at hp
      subst hp
      decide)
  exact ⟨List.mem_cons_of_mem _ (List.mem_cons_self _ _), by decide, rfl,
    h.1, h.2.1, h.2.2⟩

/-- The `FeatureFlagService` interface (`src/main.go:17-20`), as the
endpoint constructors see it: per-call behavior of `GetFeatureFlag`,
returning a value and a Go error. -/
structure FeatureFlagServiceIface (Ctx : Type) where
  GetFeatureFlag : Ctx → String → Bool × Option GoError

/-- `makeGetFeatureFlagEndpoint` (`src/main.go:64-70`), over an arbitrary
implementation of the service interface:
```
val, _ := svc.GetFeatureFlag(ctx, req.Key)
return getFeatureFlagResponse{Value: val}, nil
```
The error returned by the service is discarded (`_`) and the endpoint's own
error is unconditionally `nil`.  (The `request.(getFeatureFlagRequest)` type
assertion always succeeds, the decoder being the only producer of requests.) -/
def makeGetFeatureFlagEndpoint {Ctx : Type} (svc : FeatureFlagServiceIface Ctx)
    (ctx : Ctx) (req : getFeatureFlagRequest) :
    getFeatureFlagResponse × Option GoError :=
  ({ Value := (svc.GetFeatureFlag ctx req.Key).1 }, none)

/-- **C10.** The get endpoint silently discards the service error: whenever
the underlying service's `GetFeatureFlag` returns `(val, err)` — `err`
arbitrary, possibly non-nil — the endpoint built by
`makeGetFeatureFlagEndpoint` returns `{Value := val}` paired with a `nil`
error. -/
theorem getEndpoint_discards_error {Ctx : Type}
    (svc : FeatureFlagServiceIface Ctx) (ctx : Ctx)
    (req : getFeatureFlagRequest) (val : Bool) (err : Option GoError)
    (h : svc.GetFeatureFlag ctx req.Key = (val, err)) :
    makeGetFeatureFlagEndpoint svc ctx req = ({ Value := val }, none) := by
  simp [makeGetFeatureFlagEndpoint, h]

theorem getEndpoint_discards_error_witness :
    (FeatureFlagServiceIface.mk
        (fun (_ : Nat) (_ : String) =>
          (true, some (GoError.custom "backend down")))).GetFeatureFlag 0 "beta"
      = (true, some (GoError.custom "backend down")) ∧
    makeGetFeatureFlagEndpoint
        (FeatureFlagServiceIface.mk
          (fun (_ : Nat) (_ : String) =>
            (true, some (GoError.custom "backend down")))) 0 { Key := "beta" }
      = ({ Value := true }, none) :=
  ⟨rfl,
    getEndpoint_discards_error
      (FeatureFlagServiceIface.mk
        (fun (_ : Nat) (_ : String) =>
          (true, some (GoError.custom "backend down")))) 0 { Key := "beta" }
      true (some (GoError.custom "backend down")) rfl⟩

end FeatureFlagSvc
